import Mathlib

/-!
# LoquacityAI — verification of the streaming conversation session manager

A shallow embedding of the core logic of the LoquacityAI repository:

* the JavaScript `Map`-based source/citation merger used in
  `src/components/SearchPage.tsx` (`handleSendMessage`, lines 201–216);
* the per-turn session state machine of `handleSendMessage`
  (submission guard, streaming loop, cancellation, error handling,
  table extraction, history persistence), `handleStop`, `handleNewChat`
  and the enrichment-result callbacks;
* `handleGeminiError`, `generateRelatedQueries` and
  `fetchImagesForSources` from `src/services/geminiService.ts`;
* the table extractor `extractAndParseMarkdownTable`
  (`src/utils/markdownParser`, not present in the sources — modelled
  from the specification).

All functions are structurally recursive so that concrete runs can be
evaluated by the kernel (`decide` / `rfl`).
-/

namespace LoquacityAI

/-! ## Character-level string utilities

JavaScript string primitives (`trim`, `includes`, `startsWith`,
`indexOf`, …) are modelled on `List Char` with structural recursion. -/

def isWsChar (c : Char) : Bool :=
  c = ' ' || c = '\n' || c = '\t' || c = '\r'

def trimLeftChars : List Char → List Char
  | [] => []
  | c :: cs => if isWsChar c then trimLeftChars cs else c :: cs

def trimRightChars (l : List Char) : List Char :=
  (trimLeftChars l.reverse).reverse

def trimChars (l : List Char) : List Char :=
  trimLeftChars (trimRightChars l)

/-- Model of JavaScript `String.prototype.trim`. -/
def jsTrim (s : String) : String :=
  String.mk (trimChars s.data)

/-- Embeds `containsSub l pat` holds when `pat` occurs contiguously in `l`;
models JavaScript `String.prototype.includes` for non-empty `pat`. -/
def containsSub (l pat : List Char) : Bool :=
  match l with
  | [] => pat = []
  | _ :: cs => l.take pat.length = pat || containsSub cs pat

/-- Model of JavaScript `haystack.includes(needle)` (non-empty needle). -/
def jsIncludes (s pat : String) : Bool :=
  containsSub s.data pat.data

/-- First index of a character (JavaScript `indexOf`). -/
def firstIdx : List Char → Char → Option Nat
  | [], _ => none
  | c :: cs, t => if c = t then some 0 else (firstIdx cs t).map (· + 1)

/-- Last index of a character (JavaScript `lastIndexOf`). -/
def lastIdx (cs : List Char) (t : Char) : Option Nat :=
  (firstIdx cs.reverse t).map (fun k => cs.length - 1 - k)

def natToCharsAux : Nat → Nat → List Char
  | 0, _ => []
  | Nat.succ fuel, n =>
    if n < 10 then [Char.ofNat (48 + n)]
    else natToCharsAux fuel (n / 10) ++ [Char.ofNat (48 + n % 10)]

/-- Decimal rendering of a natural number (JavaScript number-to-string
for the non-negative integers that occur as citation offsets). -/
def natToString (n : Nat) : String :=
  String.mk (natToCharsAux (n + 1) n)

/-! ## A small JSON parser

`JSON.parse` is modelled by a fuel-driven recursive-descent parser over
`List Char`.  It supports objects, arrays, strings with the basic
escapes, integer numbers, booleans and `null`; `\uXXXX` escapes and
fractional/exponent number forms are not needed by any input considered
here.  The fuel is an upper bound on recursion depth; every recursive
step consumes at least one input character, so `2 * length + 2` fuel
never runs out on inputs the grammar accepts. -/

inductive JsonValue where
  | str (s : String)
  | num (n : Int)
  | bool (b : Bool)
  | null
  | arr (xs : List JsonValue)
  | obj (fields : List (String × JsonValue))

def skipWs : List Char → List Char
  | [] => []
  | c :: cs => if isWsChar c then skipWs cs else c :: cs

def unescapeChar (c : Char) : Char :=
  if c = 'n' then '\n'
  else if c = 't' then '\t'
  else if c = 'r' then '\r'
  else c

def parseStringBody : Nat → List Char → List Char → Option (String × List Char)
  | 0, _, _ => none
  | Nat.succ _, [], _ => none
  | Nat.succ fuel, c :: cs, acc =>
    if c = '"' then some (String.mk acc.reverse, cs)
    else if c = '\\' then
      match cs with
      | [] => none
      | e :: cs2 => parseStringBody fuel cs2 (unescapeChar e :: acc)
    else parseStringBody fuel cs (c :: acc)

def takeDigits : List Char → List Char × List Char
  | [] => ([], [])
  | c :: cs =>
    if c.isDigit then
      let p := takeDigits cs
      (c :: p.1, p.2)
    else ([], c :: cs)

def digitsToNat (l : List Char) : Nat :=
  l.foldl (fun n c => n * 10 + (c.toNat - 48)) 0

def parseNumber (cs : List Char) : Option (JsonValue × List Char) :=
  match cs with
  | '-' :: rest =>
    let p := takeDigits rest
    if p.1.isEmpty then none else some (.num (-(digitsToNat p.1 : Int)), p.2)
  | _ =>
    let p := takeDigits cs
    if p.1.isEmpty then none else some (.num (digitsToNat p.1), p.2)

inductive ParseMode where
  | value
  | objFields (acc : List (String × JsonValue))
  | arrItems (acc : List JsonValue)

def parseJ : Nat → ParseMode → List Char → Option (JsonValue × List Char)
  | 0, _, _ => none
  | Nat.succ fuel, .value, cs =>
    match skipWs cs with
    | [] => none
    | c :: rest =>
      if c = '"' then
        match parseStringBody (rest.length + 1) rest [] with
        | some p => some (.str p.1, p.2)
        | none => none
      else if c = '{' then
        match skipWs rest with
        | '}' :: r2 => some (.obj [], r2)
        | _ => parseJ fuel (.objFields []) rest
      else if c = '[' then
        match skipWs rest with
        | ']' :: r2 => some (.arr [], r2)
        | _ => parseJ fuel (.arrItems []) rest
      else if c = 't' then
        match rest with
        | 'r' :: 'u' :: 'e' :: r => some (.bool true, r)
        | _ => none
      else if c = 'f' then
        match rest with
        | 'a' :: 'l' :: 's' :: 'e' :: r => some (.bool false, r)
        | _ => none
      else if c = 'n' then
        match rest with
        | 'u' :: 'l' :: 'l' :: r => some (.null, r)
        | _ => none
      else if c = '-' || c.isDigit then parseNumber (c :: rest)
      else none
  | Nat.succ fuel, .objFields acc, cs =>
    match skipWs cs with
    | '"' :: rest =>
      match parseStringBody (rest.length + 1) rest [] with
      | none => none
      | some kp =>
        match skipWs kp.2 with
        | ':' :: r2 =>
          match parseJ fuel .value r2 with
          | none => none
          | some vp =>
            match skipWs vp.2 with
            | ',' :: r4 => parseJ fuel (.objFields (acc ++ [(kp.1, vp.1)])) r4
            | '}' :: r4 => some (.obj (acc ++ [(kp.1, vp.1)]), r4)
            | _ => none
        | _ => none
    | _ => none
  | Nat.succ fuel, .arrItems acc, cs =>
    match parseJ fuel .value cs with
    | none => none
    | some vp =>
      match skipWs vp.2 with
      | ',' :: r2 => parseJ fuel (.arrItems (acc ++ [vp.1])) r2
      | ']' :: r2 => some (.arr (acc ++ [vp.1]), r2)
      | _ => none

/-- Model of `JSON.parse`: `none` models a thrown `SyntaxError`. -/
def jsonParse (s : String) : Option JsonValue :=
  match parseJ (2 * s.length + 2) .value s.data with
  | some vp => if skipWs vp.2 = [] then some vp.1 else none
  | none => none

/-! ## Data model (`src/types.ts`) -/

/-- Embeds `Source` from `src/types.ts`. -/
structure Source where
  title : String
  uri : String
deriving DecidableEq, Repr

/-- Embeds `Citation` from `src/types.ts` (`startIndex?`, `endIndex?`, `uri`,
`license?`). -/
structure Citation where
  startIndex : Option Nat
  endIndex : Option Nat
  uri : String
  license : Option String
deriving DecidableEq, Repr

/-- Embeds `ComparisonTableData` from `src/types.ts`. -/
structure ComparisonTableData where
  headers : List String
  rows : List (List String)
deriving DecidableEq, Repr

/-- Embeds `ImageSearchResult` from `src/types.ts`. -/
structure ImageSearchResult where
  imageUrl : String
  sourceUrl : String
  title : String
deriving DecidableEq, Repr

inductive ModelType where
  | gemini
  | mistral
deriving DecidableEq, Repr

inductive Role where
  | user
  | model
deriving DecidableEq, Repr

/-- The `images` field of a `ChatMessage` distinguishes JavaScript
`undefined` (not yet attempted), `null` (placeholder for a new chat)
and a concrete array. -/
inductive ImagesField where
  | undef
  | null
  | imgs (l : List ImageSearchResult)
deriving DecidableEq, Repr

/-- Embeds `ChatMessage` from `src/types.ts`; optional object fields are
flattened to defaults (`file` keeps only presence). -/
structure ChatMessage where
  id : Nat
  role : Role
  content : String
  sources : List Source
  citations : List Citation
  table : Option ComparisonTableData
  file : Bool
  images : ImagesField
deriving DecidableEq, Repr

/-- The fields of a `search_history` row that `handleSendMessage`
inserts (`SearchPage.tsx` line 222). -/
structure HistoryRecord where
  query : String
  answer : String
  sources : List Source
deriving DecidableEq, Repr

/-! ## The JavaScript `Map` and the source/citation merger

`handleSendMessage` accumulates sources in
`sourcesMap : Map<string, Source>` via `sourcesMap.set(s.uri, s)` and
citations in `citationsMap` keyed by `` `${c.startIndex}-${c.uri}` ``
(`SearchPage.tsx` lines 201, 205, 214).  A JavaScript `Map` preserves
first-insertion order of keys; `set` on a present key overwrites the
stored value in place. -/

def mapSet {α : Type} (m : List (String × α)) (k : String) (v : α) :
    List (String × α) :=
  if m.any (fun p => p.1 = k) then
    m.map (fun p => if p.1 = k then (k, v) else p)
  else m ++ [(k, v)]

def mapKeys {α : Type} (m : List (String × α)) : List String :=
  m.map Prod.fst

/-- Embeds `Array.from(map.values())`. -/
def mapValues {α : Type} (m : List (String × α)) : List α :=
  m.map Prod.snd

def mapLookup {α : Type} (m : List (String × α)) (k : String) : Option α :=
  (m.find? (fun p => p.1 = k)).map Prod.snd

/-- Embeds `` `${c.startIndex}-${c.uri}` `` (an absent `startIndex` prints as
`"undefined"` in JavaScript). -/
def citationKey (c : Citation) : String :=
  (match c.startIndex with
   | some n => natToString n
   | none => "undefined") ++ "-" ++ c.uri

/-- Embeds `chunk.sources.forEach(s => sourcesMap.set(s.uri, s))`. -/
def mergeSources (m : List (String × Source)) (ss : List Source) :
    List (String × Source) :=
  ss.foldl (fun acc s => mapSet acc s.uri s) m

/-- Embeds `chunk.citations.forEach(c => citationsMap.set(`...`, c))`. -/
def mergeCitations (m : List (String × Citation)) (cs : List Citation) :
    List (String × Citation) :=
  cs.foldl (fun acc c => mapSet acc (citationKey c) c) m

/-- One adapted stream chunk: incremental text plus optional source and
citation metadata (`performSmartSearch`'s yield shape, and the fields
extracted from `groundingMetadata`/`citationMetadata` at line 214). -/
structure Chunk where
  text : Option String
  sources : Option (List Source)
  citations : Option (List Citation)
deriving DecidableEq, Repr

def mergeOptSources (m : List (String × Source)) :
    Option (List Source) → List (String × Source)
  | some ss => mergeSources m ss
  | none => m

def mergeOptCitations (m : List (String × Citation)) :
    Option (List Citation) → List (String × Citation)
  | some cs => mergeCitations m cs
  | none => m

/-! ## `src/services/geminiService.ts` -/

/-- The default text of `handleGeminiError`. -/
def unexpectedAIText : String :=
  "An unexpected error occurred while communicating with the AI. Please try again."

/-- The message `handleGeminiError` produces for `RESOURCE_EXHAUSTED`
(the rate-limited case). -/
def quotaApiText : String :=
  "API quota exceeded. You've made too many requests recently. Please wait a moment or check your plan and billing details."

/-- Classification of the value thrown to `handleGeminiError`:
not an `Error` with a truthy message; an `Error` whose message is not
JSON; or an `Error` whose message parses as JSON carrying optional
`error.status` and `error.message` fields. -/
inductive GeminiErrorShape where
  | notError
  | plain (msg : String)
  | structured (msg : String) (status : Option String) (innerMsg : Option String)
deriving DecidableEq, Repr

/-- Embeds `handleGeminiError` (`geminiService.ts` lines 9–28): maps a thrown
error to the user-facing message of the re-thrown `Error`. -/
def handleGeminiError : GeminiErrorShape → String
  | .notError => unexpectedAIText
  | .plain msg => if msg = "" then unexpectedAIText else msg
  | .structured msg status innerMsg =>
    if msg = "" then unexpectedAIText
    else if status = some "RESOURCE_EXHAUSTED" then quotaApiText
    else
      match innerMsg with
      | some m => if m = "" then msg else m
      | none => msg

/-- Outcome of a `generateContent` call: the transport failed, or it
returned response text. -/
inductive ApiResult where
  | failure
  | success (text : String)

/-- Split on every occurrence of a triple-backtick fence, like
`String.prototype.split` on the fence marker. -/
def splitFence : List Char → List (List Char)
  | '`' :: '`' :: '`' :: rest => [] :: splitFence rest
  | c :: rest =>
    match splitFence rest with
    | [] => [[c]]
    | p :: ps => (c :: p) :: ps
  | [] => [[]]

def joinFence : List (List Char) → List Char
  | [] => []
  | [p] => p
  | p :: ps => p ++ '`' :: '`' :: '`' :: joinFence ps

/-- Drop a literal leading `json` language tag, as the pattern
`` ```(?:json)? `` does. -/
def stripJsonTag : List Char → List Char
  | 'j' :: 's' :: 'o' :: 'n' :: rest => rest
  | l => l

/-- The first fenced block captured by the regex
`` /```(?:json)?\s*([\s\S]*?)\s*```/ ``: present exactly when two fences
occur; the captured group is the content between the first two fences,
with an optional `json` tag dropped and surrounding whitespace absorbed. -/
def extractFirstFencedBlock (s : String) : Option String :=
  match splitFence s.data with
  | _ :: inner :: _ :: _ => some (String.mk (trimChars (stripJsonTag inner)))
  | _ => none

/-- Embeds `[...new Set(queries)]`: first-seen deduplication. -/
def jsDedupe (l : List String) : List String :=
  l.foldl (fun acc q => if q ∈ acc then acc else acc ++ [q]) []

/-- The text `generateRelatedQueries` hands to `JSON.parse`: the trimmed
response, replaced by a captured fenced block when present and truthy. -/
def relatedJsonText (text : String) : String :=
  let jsonText0 := jsTrim text
  match extractFirstFencedBlock jsonText0 with
  | some g => if g = "" then jsonText0 else g
  | none => jsonText0

def asString : JsonValue → Option String
  | .str s => some s
  | _ => none

def asStringArray : JsonValue → Option (List String)
  | .arr xs => xs.mapM asString
  | _ => none

/-- Embeds `generateRelatedQueries` (`geminiService.ts` lines 417–463) as a
function of the API outcome; every caught failure yields `[]`. -/
def generateRelatedQueries : ApiResult → List String
  | .failure => []
  | .success text =>
    match jsonParse (relatedJsonText text) with
    | none => []
    | some v =>
      match asStringArray v with
      | none => []
      | some queries => (jsDedupe queries).take 5

/-- Embeds `jsonText.substring(jsonText.indexOf('['), jsonText.lastIndexOf(']') + 1)`
when both brackets exist in the right order, else the empty string
(which then fails the `startsWith('[')` check). -/
def bracketSlice (s : String) : String :=
  match firstIdx s.data '[', lastIdx s.data ']' with
  | some i, some j =>
    if i < j then String.mk ((s.data.drop i).take (j - i + 1)) else ""
  | _, _ => ""

def startsWithBracket (s : String) : Bool :=
  match s.data with
  | '[' :: _ => true
  | _ => false

/-- JavaScript truthiness of a JSON value. -/
def jsTruthy : JsonValue → Bool
  | .str s => s ≠ ""
  | .num n => n ≠ 0
  | .bool b => b
  | .null => false
  | .arr _ => true
  | .obj _ => true

def jsTruthyOpt : Option JsonValue → Bool
  | none => false
  | some v => jsTruthy v

def objGet (fields : List (String × JsonValue)) (k : String) : Option JsonValue :=
  (fields.find? (fun p => p.1 = k)).map Prod.snd

/-- Result of evaluating the filter predicate on one parsed element:
keep it, drop it, or raise a `TypeError` (property access on `null`, or
`.startsWith` on a non-string truthy field). -/
inductive ElemCheck where
  | keepE
  | dropE
  | throwE
deriving DecidableEq, Repr

/-- Embeds `r.field.startsWith('http')` on a JSON value. -/
def startsWithHttp : JsonValue → ElemCheck
  | .str s => if s.data.take 4 = ['h', 't', 't', 'p'] then .keepE else .dropE
  | _ => .throwE

/-- Embeds the filter predicate of `fetchImagesForSources` (line 536):
`r.imageUrl && r.sourceUrl && r.title && r.imageUrl.startsWith('http')
&& r.sourceUrl.startsWith('http')`, evaluated left to right. -/
def checkElem : JsonValue → ElemCheck
  | .null => .throwE
  | .obj fs =>
    if !jsTruthyOpt (objGet fs "imageUrl") then .dropE
    else if !jsTruthyOpt (objGet fs "sourceUrl") then .dropE
    else if !jsTruthyOpt (objGet fs "title") then .dropE
    else
      match startsWithHttp ((objGet fs "imageUrl").getD .null) with
      | .throwE => .throwE
      | .dropE => .dropE
      | .keepE => startsWithHttp ((objGet fs "sourceUrl").getD .null)
  | _ => .dropE

/-- Embeds `Array.prototype.filter` with a possibly-throwing predicate:
`none` models the `TypeError` propagating to the `catch`. -/
def filterImages : List JsonValue → Option (List JsonValue)
  | [] => some []
  | v :: vs =>
    match checkElem v with
    | .throwE => none
    | .dropE => filterImages vs
    | .keepE => (filterImages vs).map (v :: ·)

/-- The text `fetchImagesForSources` hands to `JSON.parse`
(`parsableText`, lines 508–522): the captured fenced block when present
and truthy, otherwise the bracket slice of the trimmed response. -/
def imagesParsableText (text : String) : String :=
  match extractFirstFencedBlock (jsTrim text) with
  | some g => if g = "" then bracketSlice (jsTrim text) else g
  | none => bracketSlice (jsTrim text)

/-- Embeds `fetchImagesForSources` (`geminiService.ts` lines 471–545) as a
function of the query, the sources and the API outcome; the kept raw
JSON elements are returned, and every failure path yields `[]`. -/
def fetchImagesForSources (query : String) (sources : List Source)
    (api : ApiResult) : List JsonValue :=
  if jsTrim query = "" ∨ sources.isEmpty then []
  else
    match api with
    | .failure => []
    | .success text =>
      if startsWithBracket (imagesParsableText text) = false then []
      else
        match jsonParse (imagesParsableText text) with
        | none => []
        | some (.arr xs) =>
          match filterImages xs with
          | some kept => kept
          | none => []
        | some _ => []

/-! ## Table extractor (spec-modelled) -/

/-- Modelled from the spec: the repository imports
`extractAndParseMarkdownTable` from `src/utils/markdownParser`, a file
that is not among the sources.  Per §4.3 the extractor scans the
finalized text for a trailing fenced block; this helper returns the
preceding prose and the block's inner content (with an optional `json`
tag dropped and the content trimmed), or `none` when the text does not
end in a fenced block. -/
def trailingFencedBlock (s : String) : Option (String × String) :=
  let t := trimRightChars s.data
  if t.reverse.take 3 = ['`', '`', '`'] then
    let body := (t.reverse.drop 3).reverse
    match splitFence body with
    | [] => none
    | [_] => none
    | ps =>
      some (String.mk (joinFence ps.dropLast),
            String.mk (trimChars (stripJsonTag (ps.getLastD []))))
  else none

/-- Extract the `text` and `table` fields from a parsed JSON value of
the shape `\x7btext, table: \x7bheaders, rows\x7d\x7d`. -/
def parseTablePayload : JsonValue → Option (String × ComparisonTableData)
  | .obj fields =>
    match objGet fields "text", objGet fields "table" with
    | some (.str t), some (.obj tf) =>
      match objGet tf "headers", objGet tf "rows" with
      | some (.arr hs), some (.arr rs) =>
        match hs.mapM asString, rs.mapM asStringArray with
        | some headers, some rows => some (t, ⟨headers, rows⟩)
        | _, _ => none
      | _, _ => none
    | _, _ => none
  | _ => none

/-- Modelled from the spec: `extractAndParseMarkdownTable`
(`src/utils/markdownParser`, absent from the sources), per §4.3: a
well-formed trailing fenced JSON block of shape
`\x7btext, table: \x7bheaders, rows\x7d\x7d` yields the `text` field
(falling back to the trimmed preceding prose when that field is empty)
and the parsed table; otherwise the original text is returned unchanged
with no table.  The function is total: malformed input is treated as
"no table" and nothing throws. -/
def extractAndParseMarkdownTable (s : String) :
    String × Option ComparisonTableData :=
  match trailingFencedBlock s with
  | none => (s, none)
  | some pi =>
    match jsonParse pi.2 with
    | none => (s, none)
    | some v =>
      match parseTablePayload v with
      | none => (s, none)
      | some tt => (if tt.1 = "" then jsTrim pi.1 else tt.1, some tt.2)

/-! ## The session manager (`src/components/SearchPage.tsx`) -/

/-- The slice of `SearchPage` component state that `handleSendMessage`,
`handleStop`, `handleNewChat` and the enrichment callbacks read and
write.  `cancelled` is the `isRequestCancelled` ref; `activeChat`
records whether a Gemini `Chat` handle exists; `file` records whether
an attachment is staged. -/
structure PageState where
  isLoading : Bool
  error : Option String
  chatMessages : List ChatMessage
  activeChat : Bool
  relatedQueries : List String
  isRelatedLoading : Bool
  cancelled : Bool
  history : List HistoryRecord
  activeModel : ModelType
  file : Bool
deriving DecidableEq, Repr

/-- Embeds `handleStop` (line 108). -/
def handleStop (st : PageState) : PageState :=
  { st with cancelled := true, isLoading := false }

/-- Embeds `resetChatState` followed by the extra resets of `handleNewChat`
(lines 132–144).  The `isRequestCancelled` ref is not touched. -/
def handleNewChat (st : PageState) : PageState :=
  { st with isLoading := false, error := none, activeChat := false,
            chatMessages := [], file := false, relatedQueries := [],
            isRelatedLoading := false }

/-- The `.then` callback of `fetchImagesForSources` (line 207): applied
only when the cancellation flag is clear, by id-matching onto the
message list. -/
def applyImagesResult (st : PageState) (mid : Nat)
    (images : List ImageSearchResult) : PageState :=
  if st.cancelled then st
  else
    { st with chatMessages := st.chatMessages.map fun m =>
        if m.id = mid then
          { m with images := if images.length > 0 then .imgs images else .imgs [] }
        else m }

/-- The `.then`/`.finally` callbacks of `generateRelatedQueries`
(line 208). -/
def applyRelatedResult (st : PageState) (queries : List String) : PageState :=
  let st1 := if st.cancelled then st else { st with relatedQueries := queries }
  if st1.cancelled then st1 else { st1 with isRelatedLoading := false }

/-- One event observed by the streaming loop: an adapted chunk arrives,
or the user invokes `handleStop` (setting the cancellation flag that
the loop checks before processing each chunk). -/
inductive TurnEvent where
  | chunk (c : Chunk)
  | stop
deriving DecidableEq, Repr

def isStopEvent : TurnEvent → Bool
  | .stop => true
  | .chunk _ => false

/-- Which of the three streaming loops runs (lines 198, 205, 214). -/
inductive StreamKind where
  | geminiNew
  | geminiCont
  | mistral
deriving DecidableEq, Repr

/-- The accumulators local to one `handleSendMessage` call:
`fullText`, `sourcesMap`, `citationsMap` (lines 194, 201). -/
structure StreamAcc where
  fullText : String
  sourcesMap : List (String × Source)
  citationsMap : List (String × Citation)
deriving DecidableEq, Repr

def initialAcc : StreamAcc := ⟨"", [], []⟩

/-- Text appended per chunk: `chunk.text || ''` in the Mistral and
new-chat Gemini loops; the continuation loop (line 214) appends
`chunk.text` unguarded, so an absent text concatenates as the string
`"undefined"`. -/
def chunkTextOf : StreamKind → Option String → String
  | .geminiCont, none => "undefined"
  | .geminiCont, some t => t
  | _, t => t.getD ""

/-- How one chunk updates the accumulators (lines 198, 205, 214). -/
def applyChunkK (k : StreamKind) (acc : StreamAcc) (c : Chunk) : StreamAcc :=
  match k with
  | .mistral => { acc with fullText := acc.fullText ++ c.text.getD "" }
  | _ =>
    { fullText := acc.fullText ++ chunkTextOf k c.text,
      sourcesMap := mergeOptSources acc.sourcesMap c.sources,
      citationsMap := mergeOptCitations acc.citationsMap c.citations }

/-- The per-chunk `setChatMessages` updater: rewrite the pending model
message by id. -/
def updateMsgsK (k : StreamKind) (msgs : List ChatMessage) (mid : Nat)
    (acc : StreamAcc) : List ChatMessage :=
  match k with
  | .mistral =>
    msgs.map fun m => if m.id = mid then { m with content := acc.fullText } else m
  | _ =>
    msgs.map fun m =>
      if m.id = mid then
        { m with content := acc.fullText,
                 sources := mapValues acc.sourcesMap,
                 citations := mapValues acc.citationsMap }
      else m

/-- Loop state: the cancellation flag, the accumulators, and the
visible message list. -/
structure LoopSt where
  cancelled : Bool
  acc : StreamAcc
  msgs : List ChatMessage
deriving DecidableEq, Repr

/-- One iteration of the streaming loop.  A chunk arriving after the
flag is set is not processed (`if (isRequestCancelled.current) break`);
a stop event sets the flag. -/
def stepK (k : StreamKind) (mid : Nat) (ls : LoopSt) (e : TurnEvent) : LoopSt :=
  match e with
  | .stop => { ls with cancelled := true }
  | .chunk c =>
    if ls.cancelled then ls
    else
      let acc := applyChunkK k ls.acc c
      { cancelled := false, acc := acc, msgs := updateMsgsK k ls.msgs mid acc }

/-- Embeds `t('search.fileAnalysis')` — the query recorded when the text was
empty (line 222). -/
def fileAnalysisText : String := "File Analysis"

/-- Embeds `t('search.error.quotaExceeded')` — the designated quota-exceeded
message (line 228). -/
def quotaExceededText : String := "API quota exceeded. Please try again later."

/-- Embeds `t('search.error.unexpected')` (line 227). -/
def unexpectedErrorText : String := "An unexpected error occurred."

/-- Embeds `isNewChat` (line 189): for Mistral, the visible list is empty; for
Gemini, no active chat handle exists. -/
def isNewChatOf (st : PageState) : Bool :=
  match st.activeModel with
  | .mistral => st.chatMessages.isEmpty
  | .gemini => !st.activeChat

def streamKindOf (model : ModelType) (isNewChat : Bool) : StreamKind :=
  match model with
  | .mistral => .mistral
  | .gemini => if isNewChat then .geminiNew else .geminiCont

/-- The user message appended at line 190 (`file` only for Gemini). -/
def mkUserMessage (query : String) (uid : Nat) (hasFile : Bool)
    (model : ModelType) : ChatMessage :=
  { id := uid, role := .user, content := query,
    sources := [], citations := [], table := none,
    file := hasFile && model == .gemini, images := .undef }

/-- The pending model placeholder appended at line 190. -/
def mkModelPlaceholder (mid : Nat) (isNewChat : Bool)
    (model : ModelType) : ChatMessage :=
  { id := mid, role := .model, content := "",
    sources := [], citations := [], table := none, file := false,
    images := if isNewChat && model == .gemini then .null else .undef }

/-- The history row built at line 222 (`query || t('search.fileAnalysis')`). -/
def mkHistoryRecord (query fullText : String)
    (finalSources : List Source) : HistoryRecord :=
  { query := if query = "" then fileAnalysisText else query,
    answer := fullText, sources := finalSources }

/-- The `catch` block (lines 225–230), reached with the cancellation
flag clear: derive the shown message (quota-specific when the raw
message contains `"API quota exceeded"`), drop the pending placeholder,
clear the loading flag. -/
def errorPhase (st : PageState) (emsg : String) (mid : Nat) : PageState :=
  let errorMessage := if emsg = "" then unexpectedErrorText else emsg
  let shown :=
    if jsIncludes errorMessage "API quota exceeded" then quotaExceededText
    else errorMessage
  { st with error := some shown,
            chatMessages := st.chatMessages.filter (fun m => m.id ≠ mid),
            isLoading := false }

/-- Lines 219–224: run the table extractor once over the final text,
rewrite the pending message, and insert a history record only for a
new-session turn. -/
def commitPhase (st : PageState) (query : String) (mid : Nat)
    (fullText : String) (finalSources : List Source)
    (isNewChat : Bool) : PageState :=
  let r := extractAndParseMarkdownTable fullText
  let msgs := st.chatMessages.map fun m =>
    if m.id = mid then { m with content := r.1, table := r.2 } else m
  let st2 := { st with chatMessages := msgs }
  let st3 :=
    if isNewChat then
      { st2 with history := mkHistoryRecord query fullText finalSources :: st2.history }
    else st2
  { st3 with isLoading := false }

/-- Everything after the streaming loop: the cancellation early-returns
(lines 206/218, with `setIsLoading(false)` from the `finally`), the
`catch`, or the commit; a Gemini new chat additionally dispatches the
enrichment tasks (`setIsRelatedLoading(true)`) and binds the chat
handle (line 210) before committing. -/
def settleTurn (st1 : PageState) (query : String) (mid : Nat)
    (k : StreamKind) (isNewChat : Bool) (model : ModelType)
    (ls : LoopSt) (outcome : Option String) : PageState :=
  let st2 := { st1 with chatMessages := ls.msgs, cancelled := ls.cancelled }
  if ls.cancelled then { st2 with isLoading := false }
  else
    match outcome with
    | some emsg => errorPhase st2 emsg mid
    | none =>
      let st3 :=
        if k = .geminiNew then { st2 with isRelatedLoading := true, activeChat := true }
        else st2
      let finalSources :=
        match model with
        | .mistral => []
        | .gemini => mapValues ls.acc.sourcesMap
      commitPhase st3 query mid ls.acc.fullText finalSources isNewChat

/-- The visible list right after line 190: the prior messages plus the
user message and the pending model placeholder. -/
def msgs0Of (st : PageState) (query : String) (uid mid : Nat) :
    List ChatMessage :=
  st.chatMessages ++
    [mkUserMessage query uid st.file st.activeModel,
     mkModelPlaceholder mid (isNewChatOf st) st.activeModel]

/-- The component state right after lines 184–203: flag cleared,
loading set, error cleared, messages appended, attachment consumed, and
(for a Gemini new chat) related queries reset. -/
def startState (st : PageState) (query : String) (uid mid : Nat) : PageState :=
  { st with
    cancelled := false,
    isLoading := true,
    error := none,
    chatMessages := msgs0Of st query uid mid,
    file := false,
    relatedQueries :=
      if streamKindOf st.activeModel (isNewChatOf st) = .geminiNew then []
      else st.relatedQueries }

/-- Embeds `handleSendMessage` (lines 182–231) over one turn.  `events` is the
interleaving of adapted stream chunks with user stops; `outcome` is a
provider error raised by the stream (surfacing after the delivered
events), or `none` for a clean end of stream.  `uid`/`mid` are the two
fresh `crypto.randomUUID()` values. -/
def runTurn (st : PageState) (query : String) (uid mid : Nat)
    (events : List TurnEvent) (outcome : Option String) : PageState :=
  if st.isLoading = true ∨ (jsTrim query = "" ∧ st.file = false) then st
  else
    settleTurn (startState st query uid mid) query mid
      (streamKindOf st.activeModel (isNewChatOf st)) (isNewChatOf st)
      st.activeModel
      (events.foldl (stepK (streamKindOf st.activeModel (isNewChatOf st)) mid)
        ⟨false, initialAcc, msgs0Of st query uid mid⟩)
      outcome

/-! ## Lemmas about the `Map` model -/

/-- Insert a key at the back unless it is already present: the action
of `Map.set` on the key sequence. -/
def insKey (ks : List String) (u : String) : List String :=
  if u ∈ ks then ks else ks ++ [u]

/-- The key sequence obtained by inserting each listed key in order:
first-seen deduplication. -/
def firstSeenUris (us : List String) : List String :=
  us.foldl insKey []

lemma mapKeys_replace {α : Type} (m : List (String × α)) (k : String) (v : α) :
    mapKeys (m.map fun p => if p.1 = k then (k, v) else p) = mapKeys m := by
  induction m with
  | nil => rfl
  | cons p t ih =>
    by_cases h : p.1 = k <;> simp_all [mapKeys]

lemma any_fst_eq {α : Type} (m : List (String × α)) (k : String) :
    (m.any fun p => p.1 = k) = true ↔ k ∈ mapKeys m := by
  simp [mapKeys, List.any_eq_true, List.mem_map]

lemma mapKeys_mapSet {α : Type} (m : List (String × α)) (k : String) (v : α) :
    mapKeys (mapSet m k v) = insKey (mapKeys m) k := by
  unfold mapSet insKey
  by_cases h : k ∈ mapKeys m
  · rw [if_pos ((any_fst_eq m k).2 h), if_pos h, mapKeys_replace]
  · rw [if_neg (fun hc => h ((any_fst_eq m k).1 hc)), if_neg h]
    simp [mapKeys]

lemma length_eq_keys {α : Type} (m : List (String × α)) :
    m.length = (mapKeys m).length := by
  simp [mapKeys]

lemma length_mapSet_mem {α : Type} (m : List (String × α)) (k : String) (v : α)
    (h : k ∈ mapKeys m) : (mapSet m k v).length = m.length := by
  rw [length_eq_keys, length_eq_keys, mapKeys_mapSet]
  unfold insKey
  rw [if_pos h]

lemma mapLookup_replace {α : Type} (m : List (String × α)) (k : String) (v : α) :
    mapLookup (m.map fun p => if p.1 = k then (k, v) else p) k
      = if k ∈ mapKeys m then some v else none := by
  induction m with
  | nil =>
    simp only [List.map_nil]
    rw [if_neg (by simp [mapKeys])]
    rfl
  | cons p t ih =>
    by_cases h : p.1 = k
    · simp [mapLookup, mapKeys, h, List.find?]
    · simp only [List.map_cons, if_neg h]
      rw [mapLookup, List.find?_cons_of_neg _ (by simp [h]), ← mapLookup, ih]
      have hmem : k ∈ mapKeys (p :: t) ↔ k ∈ mapKeys t := by
        simp only [mapKeys, List.map_cons, List.mem_cons]
        constructor
        · rintro (he | ht)
          · exact absurd he.symm h
          · exact ht
        · exact Or.inr
      by_cases hk : k ∈ mapKeys t
      · rw [if_pos hk, if_pos (hmem.2 hk)]
      · rw [if_neg hk, if_neg (fun hc => hk (hmem.1 hc))]

lemma mapLookup_append_single {α : Type} (m : List (String × α)) (k : String)
    (v : α) (h : k ∉ mapKeys m) : mapLookup (m ++ [(k, v)]) k = some v := by
  induction m with
  | nil =>
    rw [List.nil_append, mapLookup, List.find?_cons_of_pos _ (by simp)]
    rfl
  | cons p t ih =>
    simp only [mapKeys, List.map_cons, List.mem_cons] at h
    push_neg at h
    rw [List.cons_append, mapLookup,
        List.find?_cons_of_neg _ (by simp only [decide_eq_true_eq]; exact fun he => h.1 he.symm), ← mapLookup]
    exact ih (by simpa [mapKeys] using h.2)

lemma mapLookup_mapSet_self {α : Type} (m : List (String × α)) (k : String) (v : α) :
    mapLookup (mapSet m k v) k = some v := by
  unfold mapSet
  by_cases h : k ∈ mapKeys m
  · rw [if_pos ((any_fst_eq m k).2 h), mapLookup_replace, if_pos h]
  · rw [if_neg (fun hc => h ((any_fst_eq m k).1 hc))]
    exact mapLookup_append_single m k v h

lemma mergeSources_cons (m : List (String × Source)) (s : Source)
    (t : List Source) :
    mergeSources m (s :: t) = mergeSources (mapSet m s.uri s) t := rfl

lemma mapKeys_mergeSources (ss : List Source) (m : List (String × Source)) :
    mapKeys (mergeSources m ss) = (ss.map Source.uri).foldl insKey (mapKeys m) := by
  induction ss generalizing m with
  | nil => rfl
  | cons s t ih =>
    rw [mergeSources_cons, ih, List.map_cons, List.foldl_cons, mapKeys_mapSet]

lemma mergeCitations_cons (m : List (String × Citation)) (c : Citation)
    (t : List Citation) :
    mergeCitations m (c :: t) = mergeCitations (mapSet m (citationKey c) c) t := rfl

lemma mapKeys_mergeCitations (cs : List Citation) (m : List (String × Citation)) :
    mapKeys (mergeCitations m cs)
      = (cs.map citationKey).foldl insKey (mapKeys m) := by
  induction cs generalizing m with
  | nil => rfl
  | cons c t ih =>
    rw [mergeCitations_cons, ih, List.map_cons, List.foldl_cons, mapKeys_mapSet]

/-- Every stored source is keyed by its own uri. -/
def uriKeyed (m : List (String × Source)) : Prop :=
  ∀ p ∈ m, (Prod.snd p).uri = p.1

lemma uriKeyed_mapSet {m : List (String × Source)} (h : uriKeyed m) (s : Source) :
    uriKeyed (mapSet m s.uri s) := by
  unfold mapSet
  split
  · intro p hp
    rcases List.mem_map.1 hp with ⟨q, hq, he⟩
    by_cases hk : q.1 = s.uri
    · rw [if_pos hk] at he
      rw [← he]
    · rw [if_neg hk] at he
      rw [← he]
      exact h q hq
  · intro p hp
    rcases List.mem_append.1 hp with hm | hs
    · exact h p hm
    · rcases List.mem_singleton.1 hs with rfl
      rfl

lemma uriKeyed_mergeSources {m : List (String × Source)} (h : uriKeyed m)
    (ss : List Source) : uriKeyed (mergeSources m ss) := by
  induction ss generalizing m with
  | nil => exact h
  | cons s t ih =>
    rw [mergeSources_cons]
    exact ih (uriKeyed_mapSet h s)

lemma valuesUri_eq_keys {m : List (String × Source)} (h : uriKeyed m) :
    (mapValues m).map Source.uri = mapKeys m := by
  induction m with
  | nil => rfl
  | cons p t ih =>
    have hh := h p (List.mem_cons_self p t)
    have ih2 := ih (fun q hq => h q (List.mem_cons_of_mem p hq))
    simp only [mapValues, mapKeys, List.map_cons] at ih2 ⊢
    rw [hh, ih2]

lemma mem_foldl_insKey (us : List String) (ks : List String) (x : String)
    (h : x ∈ ks) : x ∈ us.foldl insKey ks := by
  induction us generalizing ks with
  | nil => exact h
  | cons u t ih =>
    rw [List.foldl_cons]
    apply ih
    unfold insKey
    split
    · exact h
    · exact List.mem_append_left _ h

lemma mem_foldl_insKey_of_mem (us : List String) (ks : List String) (u : String)
    (h : u ∈ us) : u ∈ us.foldl insKey ks := by
  induction us generalizing ks with
  | nil => cases h
  | cons a t ih =>
    rw [List.foldl_cons]
    rcases List.mem_cons.1 h with rfl | ht
    · apply mem_foldl_insKey
      unfold insKey
      split
      · assumption
      · exact List.mem_append_right _ (List.mem_singleton_self u)
    · exact ih _ ht

lemma foldl_insKey_eq_of_subset (us : List String) (ks : List String)
    (h : ∀ u ∈ us, u ∈ ks) : us.foldl insKey ks = ks := by
  induction us with
  | nil => rfl
  | cons u t ih =>
    rw [List.foldl_cons]
    have hu : insKey ks u = ks := by
      unfold insKey
      rw [if_pos (h u (List.mem_cons_self u t))]
    rw [hu]
    exact ih (fun x hx => h x (List.mem_cons_of_mem u hx))

lemma foldl_insKey_idem (us : List String) (ks : List String) :
    us.foldl insKey (us.foldl insKey ks) = us.foldl insKey ks :=
  foldl_insKey_eq_of_subset us _ (fun u hu => mem_foldl_insKey_of_mem us ks u hu)

lemma length_mergeSources_idem (sm : List (String × Source)) (ss : List Source) :
    (mergeSources (mergeSources sm ss) ss).length = (mergeSources sm ss).length := by
  rw [length_eq_keys, length_eq_keys (mergeSources sm ss),
      mapKeys_mergeSources, mapKeys_mergeSources, foldl_insKey_idem]

lemma length_mergeCitations_idem (cm : List (String × Citation))
    (cs : List Citation) :
    (mergeCitations (mergeCitations cm cs) cs).length
      = (mergeCitations cm cs).length := by
  rw [length_eq_keys, length_eq_keys (mergeCitations cm cs),
      mapKeys_mergeCitations, mapKeys_mergeCitations, foldl_insKey_idem]

/-! ## Claim C1 -/

/-- C1, counterexample: the claim asserts that a chunk carrying a source
whose uri is already present is a no-op with "the stored title for that
uri not updated".  After merging `\x7buri: "a", title: "t1"\x7d` and then
`\x7buri: "a", title: "t2"\x7d`, the stored source for `"a"` has title
`"t2"`, not `"t1"`: `Map.set` overwrites the value of an existing key. -/
theorem C1_counterexample :
    mapLookup (mergeSources (mergeSources [] [⟨"t1", "a"⟩]) [⟨"t2", "a"⟩]) "a"
        = some ⟨"t2", "a"⟩ ∧
    mapLookup (mergeSources [] [⟨"t1", "a"⟩]) "a" = some ⟨"t1", "a"⟩ := by
  constructor
  · rfl
  · rfl

/-- C1 (amended): across any chunk sequence the merged source list is
deduplicated by uri in first-seen order, and a source whose uri is
already present leaves the key sequence (hence citation numbering and
the set of uris) unchanged — but the stored value (title) for that uri
is overwritten with the newest source. -/
theorem C1_sources_dedup_first_seen :
    (∀ ss : List Source,
        (mapValues (mergeSources [] ss)).map Source.uri
          = firstSeenUris (ss.map Source.uri)) ∧
    (∀ (m : List (String × Source)) (s : Source), s.uri ∈ mapKeys m →
        mapKeys (mergeSources m [s]) = mapKeys m ∧
        mapLookup (mergeSources m [s]) s.uri = some s) := by
  constructor
  · intro ss
    have hk : uriKeyed (mergeSources [] ss) :=
      uriKeyed_mergeSources (fun p hp => absurd hp (List.not_mem_nil p)) ss
    rw [valuesUri_eq_keys hk, mapKeys_mergeSources]
    rfl
  · intro m s h
    constructor
    · have : mergeSources m [s] = mapSet m s.uri s := rfl
      rw [this, mapKeys_mapSet]
      unfold insKey
      rw [if_pos h]
    · have : mergeSources m [s] = mapSet m s.uri s := rfl
      rw [this]
      exact mapLookup_mapSet_self m s.uri s

/-- C1, witness: instantiating the amended theorem at a map already
holding uri `"a"`. -/
theorem C1_witness :
    mapKeys (mergeSources [("a", (⟨"t1", "a"⟩ : Source))] [⟨"t2", "a"⟩]) = ["a"] ∧
    mapLookup (mergeSources [("a", (⟨"t1", "a"⟩ : Source))] [⟨"t2", "a"⟩]) "a"
      = some ⟨"t2", "a"⟩ :=
  ⟨(C1_sources_dedup_first_seen.2 [("a", ⟨"t1", "a"⟩)] ⟨"t2", "a"⟩ (by decide)).1,
   (C1_sources_dedup_first_seen.2 [("a", ⟨"t1", "a"⟩)] ⟨"t2", "a"⟩ (by decide)).2⟩

/-! ## Claim C2 -/

/-- C2: re-applying a chunk is count-neutral — a source whose uri is
already a key does not grow the source map, a citation whose
`(startIndex, uri)` key is already present does not grow the citation
map, and applying the same chunk twice yields the same source count and
citation count as applying it once, in each of the three streaming
loops. -/
theorem C2_reapplication_no_growth :
    (∀ (m : List (String × Source)) (s : Source), s.uri ∈ mapKeys m →
        (mapSet m s.uri s).length = m.length) ∧
    (∀ (m : List (String × Citation)) (c : Citation),
        citationKey c ∈ mapKeys m →
        (mapSet m (citationKey c) c).length = m.length) ∧
    (∀ (k : StreamKind) (acc : StreamAcc) (c : Chunk),
        (applyChunkK k (applyChunkK k acc c) c).sourcesMap.length
          = (applyChunkK k acc c).sourcesMap.length ∧
        (applyChunkK k (applyChunkK k acc c) c).citationsMap.length
          = (applyChunkK k acc c).citationsMap.length) := by
  refine ⟨fun m s h => length_mapSet_mem m s.uri s h,
          fun m c h => length_mapSet_mem m (citationKey c) c h, ?_⟩
  intro k acc c
  obtain ⟨ct, cs, cc⟩ := c
  cases k with
  | mistral => exact ⟨rfl, rfl⟩
  | geminiNew =>
    constructor
    · cases cs with
      | none => rfl
      | some ss => exact length_mergeSources_idem acc.sourcesMap ss
    · cases cc with
      | none => rfl
      | some l => exact length_mergeCitations_idem acc.citationsMap l
  | geminiCont =>
    constructor
    · cases cs with
      | none => rfl
      | some ss => exact length_mergeSources_idem acc.sourcesMap ss
    · cases cc with
      | none => rfl
      | some l => exact length_mergeCitations_idem acc.citationsMap l

/-- C2, witness: re-applying a duplicate source and a duplicate
citation at concrete inputs. -/
theorem C2_witness :
    (mapSet [("a", (⟨"t1", "a"⟩ : Source))] (Source.uri ⟨"t2", "a"⟩) ⟨"t2", "a"⟩).length = 1 ∧
    (mapSet [("7-u", (⟨some 7, none, "u", none⟩ : Citation))]
        (citationKey ⟨some 7, none, "u", none⟩) ⟨some 7, none, "u", none⟩).length = 1 :=
  ⟨C2_reapplication_no_growth.1 [("a", ⟨"t1", "a"⟩)] ⟨"t2", "a"⟩ (by decide),
   C2_reapplication_no_growth.2.1 [("7-u", ⟨some 7, none, "u", none⟩)]
     ⟨some 7, none, "u", none⟩ (by decide)⟩

/-! ## Lemmas about the streaming loop -/

lemma stepK_stop (k : StreamKind) (mid : Nat) (ls : LoopSt) :
    (stepK k mid ls .stop).cancelled = true := rfl

lemma foldl_stepK_frozen (k : StreamKind) (mid : Nat) (ls : LoopSt)
    (h : ls.cancelled = true) (events : List TurnEvent) :
    events.foldl (stepK k mid) ls = ls := by
  induction events with
  | nil => rfl
  | cons e t ih =>
    rw [List.foldl_cons]
    have hstep : stepK k mid ls e = ls := by
      cases e with
      | stop =>
        obtain ⟨c, a, m⟩ := ls
        cases c with
        | true => rfl
        | false => cases h
      | chunk c =>
        simp only [stepK]
        rw [if_pos h]
    rw [hstep]
    exact ih

lemma cancelled_foldl_stepK (k : StreamKind) (mid : Nat)
    (events : List TurnEvent) (ls : LoopSt) :
    (events.foldl (stepK k mid) ls).cancelled
      = (ls.cancelled || events.any isStopEvent) := by
  induction events generalizing ls with
  | nil => simp
  | cons e t ih =>
    rw [List.foldl_cons, ih]
    cases e with
    | stop => simp [stepK, isStopEvent]
    | chunk c =>
      by_cases h : ls.cancelled = true
      · simp [stepK, h, isStopEvent]
      · have h2 : ls.cancelled = false := by
          cases hc : ls.cancelled
          · rfl
          · exact absurd hc h
        simp [stepK, h2, isStopEvent]

lemma foldl_stepK_append_stop (k : StreamKind) (mid : Nat) (ls : LoopSt)
    (pre post : List TurnEvent) :
    List.foldl (stepK k mid) ls (pre ++ .stop :: post)
      = List.foldl (stepK k mid) ls (pre ++ [.stop]) := by
  rw [List.foldl_append, List.foldl_append, List.foldl_cons, List.foldl_cons,
      List.foldl_nil]
  exact foldl_stepK_frozen k mid _ (stepK_stop k mid _) post

/-! ## Claim C3 -/

/-- C3: once a stop occurs during the stream, the turn is insensitive
to everything the stream delivers afterwards — the run over
`pre ++ stop :: post` equals the run over `pre ++ [stop]` whatever
`post` and whatever outcome the stale stream reports, so the pending
message's content stays frozen at its value when the stop occurred —
and no history record is inserted for the cancelled turn. -/
theorem C3_stop_freezes_turn (st : PageState) (query : String) (uid mid : Nat)
    (pre post : List TurnEvent) (outcome outcome2 : Option String) :
    runTurn st query uid mid (pre ++ .stop :: post) outcome
      = runTurn st query uid mid (pre ++ [.stop]) outcome2 ∧
    (runTurn st query uid mid (pre ++ .stop :: post) outcome).history
      = st.history := by
  unfold runTurn
  by_cases hrej : st.isLoading = true ∨ (jsTrim query = "" ∧ st.file = false)
  · rw [if_pos hrej, if_pos hrej]
    exact ⟨rfl, rfl⟩
  · rw [if_neg hrej, if_neg hrej]
    rw [foldl_stepK_append_stop]
    have hcan : (List.foldl (stepK (streamKindOf st.activeModel (isNewChatOf st)) mid)
        ⟨false, initialAcc, msgs0Of st query uid mid⟩
        (pre ++ [TurnEvent.stop])).cancelled = true := by
      rw [cancelled_foldl_stepK]
      simp [isStopEvent]
    constructor
    · unfold settleTurn
      rw [if_pos hcan, if_pos hcan]
    · unfold settleTurn
      rw [if_pos hcan]
      rfl

/-! ## Claim C7 -/

/-- C7: a submission while a stream is already active
(`isLoading = true`), or with blank query text and no attachment, is
rejected with no state change at all: the resulting state is the input
state, whatever the stream would have delivered. -/
theorem C7_submission_rejected (st : PageState) (query : String)
    (uid mid : Nat) (events : List TurnEvent) (outcome : Option String)
    (h : st.isLoading = true ∨ (jsTrim query = "" ∧ st.file = false)) :
    runTurn st query uid mid events outcome = st := by
  unfold runTurn
  rw [if_pos h]

/-- C7, witness: a submission during streaming, and a blank submission
without attachment, both leave a concrete state unchanged. -/
theorem C7_witness :
    runTurn
        { isLoading := true, error := none, chatMessages := [],
          activeChat := false, relatedQueries := [], isRelatedLoading := false,
          cancelled := false, history := [], activeModel := .gemini, file := false }
        "hi" 0 1 [] none
      = { isLoading := true, error := none, chatMessages := [],
          activeChat := false, relatedQueries := [], isRelatedLoading := false,
          cancelled := false, history := [], activeModel := .gemini, file := false } ∧
    runTurn
        { isLoading := false, error := none, chatMessages := [],
          activeChat := false, relatedQueries := [], isRelatedLoading := false,
          cancelled := false, history := [], activeModel := .gemini, file := false }
        "   " 2 3 [] none
      = { isLoading := false, error := none, chatMessages := [],
          activeChat := false, relatedQueries := [], isRelatedLoading := false,
          cancelled := false, history := [], activeModel := .gemini, file := false } :=
  ⟨C7_submission_rejected _ "hi" 0 1 [] none (Or.inl rfl),
   C7_submission_rejected _ "   " 2 3 [] none (Or.inr ⟨by decide, rfl⟩)⟩

/-! ## Claim C4 -/

/-- A concrete idle component state used to instantiate theorems. -/
def sampleBase : PageState :=
  { isLoading := false, error := none, chatMessages := [], activeChat := false,
    relatedQueries := [], isRelatedLoading := false, cancelled := false,
    history := [], activeModel := .gemini, file := false }

/-- C4, counterexample: the claim asserts every enrichment result
arriving after the user started a new chat is dropped without mutating
state.  `handleNewChat` does not set the cancellation flag, so a stale
related-query result arriving afterwards passes the
`!isRequestCancelled.current` check and overwrites `relatedQueries`:
the state does change. -/
theorem C4_counterexample :
    applyRelatedResult (handleNewChat sampleBase) ["stale"]
      ≠ handleNewChat sampleBase := by
  decide

/-- C4 (amended): an enrichment result arriving after the session was
cancelled is dropped without touching state, and an image-discovery
result arriving after a new chat leaves the state unchanged (the
message id no longer matches anything); but a related-query result
arriving after a new chat whose turn was never stopped does overwrite
the related-queries field (and clears its loading flag) — it is only
invisible because the emptied chat renders no related-query panel. -/
theorem C4_stale_enrichment :
    (∀ (st : PageState) (mid : Nat) (imgs : List ImageSearchResult)
        (qs : List String), st.cancelled = true →
        applyImagesResult st mid imgs = st ∧ applyRelatedResult st qs = st) ∧
    (∀ (st : PageState) (mid : Nat) (imgs : List ImageSearchResult),
        applyImagesResult (handleNewChat st) mid imgs = handleNewChat st) ∧
    (∀ (st : PageState) (qs : List String), st.cancelled = false →
        applyRelatedResult (handleNewChat st) qs
          = { handleNewChat st with relatedQueries := qs }) := by
  refine ⟨?_, ?_, ?_⟩
  · intro st mid imgs qs h
    constructor
    · unfold applyImagesResult
      rw [if_pos h]
    · unfold applyRelatedResult
      rw [if_pos h, if_pos h]
  · intro st mid imgs
    unfold applyImagesResult
    by_cases h : (handleNewChat st).cancelled = true
    · rw [if_pos h]
    · rw [if_neg h]
      show ({ handleNewChat st with
        chatMessages := List.map _ (handleNewChat st).chatMessages } : PageState) = _
      rfl
  · intro st qs h
    have h2 : (handleNewChat st).cancelled = false := h
    unfold applyRelatedResult
    rw [if_neg (by rw [h2]; exact Bool.false_ne_true)]
    rw [if_neg (by rw [h2]; exact Bool.false_ne_true)]
    rfl

/-- C4, witness: instantiating the amended theorem — a cancelled
session drops both kinds of result, and an image result after a new
chat is a no-op. -/
theorem C4_witness :
    (applyImagesResult { sampleBase with cancelled := true } 1 [⟨"http://i", "http://s", "t"⟩]
        = { sampleBase with cancelled := true } ∧
     applyRelatedResult { sampleBase with cancelled := true } ["q"]
        = { sampleBase with cancelled := true }) ∧
    applyImagesResult (handleNewChat sampleBase) 1 [⟨"http://i", "http://s", "t"⟩]
        = handleNewChat sampleBase :=
  ⟨C4_stale_enrichment.1 { sampleBase with cancelled := true } 1
      [⟨"http://i", "http://s", "t"⟩] ["q"] rfl,
   C4_stale_enrichment.2.1 sampleBase 1 [⟨"http://i", "http://s", "t"⟩]⟩

/-! ## Settlement lemmas -/

lemma settleTurn_cancelled {ls : LoopSt} (h : ls.cancelled = true)
    (st1 : PageState) (q : String) (mid : Nat) (k : StreamKind) (inc : Bool)
    (model : ModelType) (o : Option String) :
    settleTurn st1 q mid k inc model ls o
      = { st1 with chatMessages := ls.msgs, cancelled := ls.cancelled,
                   isLoading := false } := by
  unfold settleTurn
  rw [if_pos h]

lemma settleTurn_error {ls : LoopSt} (h : ls.cancelled = false)
    (st1 : PageState) (q : String) (mid : Nat) (k : StreamKind) (inc : Bool)
    (model : ModelType) (emsg : String) :
    settleTurn st1 q mid k inc model ls (some emsg)
      = errorPhase { st1 with chatMessages := ls.msgs, cancelled := ls.cancelled }
          emsg mid := by
  unfold settleTurn
  rw [if_neg (by rw [h]; exact Bool.false_ne_true)]

lemma settleTurn_commit {ls : LoopSt} (h : ls.cancelled = false)
    (st1 : PageState) (q : String) (mid : Nat) (k : StreamKind) (inc : Bool)
    (model : ModelType) :
    settleTurn st1 q mid k inc model ls none
      = commitPhase
          (if k = .geminiNew then
            { st1 with chatMessages := ls.msgs, cancelled := ls.cancelled,
                       isRelatedLoading := true, activeChat := true }
           else
            { st1 with chatMessages := ls.msgs, cancelled := ls.cancelled })
          q mid ls.acc.fullText
          (match model with
           | .mistral => []
           | .gemini => mapValues ls.acc.sourcesMap)
          inc := by
  unfold settleTurn
  rw [if_neg (by rw [h]; exact Bool.false_ne_true)]

lemma errorPhase_history (st : PageState) (emsg : String) (mid : Nat) :
    (errorPhase st emsg mid).history = st.history := rfl

lemma commitPhase_history (st : PageState) (q : String) (mid : Nat)
    (ft : String) (fs : List Source) (inc : Bool) :
    (commitPhase st q mid ft fs inc).history
      = if inc then mkHistoryRecord q ft fs :: st.history else st.history := by
  cases inc with
  | true => rfl
  | false => rfl

lemma cancelled_of_stop_mem (k : StreamKind) (mid : Nat) (ls : LoopSt)
    (events : List TurnEvent) (h : TurnEvent.stop ∈ events) :
    (events.foldl (stepK k mid) ls).cancelled = true := by
  rw [cancelled_foldl_stepK]
  have : events.any isStopEvent = true :=
    List.any_eq_true.2 ⟨.stop, h, rfl⟩
  rw [this, Bool.or_true]

lemma cancelled_of_stop_not_mem (k : StreamKind) (mid : Nat)
    (events : List TurnEvent) (acc : StreamAcc) (msgs : List ChatMessage)
    (h : TurnEvent.stop ∉ events) :
    (events.foldl (stepK k mid) ⟨false, acc, msgs⟩).cancelled = false := by
  rw [cancelled_foldl_stepK]
  have : events.any isStopEvent = false := by
    rw [List.any_eq_false]
    intro e he
    cases e with
    | chunk c => simp [isStopEvent]
    | stop => exact absurd he h
  rw [this]
  rfl

/-! ## Claim C5 -/

/-- C5: a history record is inserted exactly when the turn begins a new
session (`isNewChatOf`: no chat handle for Gemini, empty visible list
for Mistral) and the stream ran to completion with no stop and no
provider error; in every other case — continuation turn, cancelled
turn, errored turn — the history is untouched. -/
theorem C5_history_persistence (st : PageState) (q : String) (uid mid : Nat)
    (events : List TurnEvent) (outcome : Option String)
    (hacc : ¬ (st.isLoading = true ∨ (jsTrim q = "" ∧ st.file = false))) :
    (isNewChatOf st = true ∧ TurnEvent.stop ∉ events ∧ outcome = none →
       ∃ rec, (runTurn st q uid mid events outcome).history = rec :: st.history) ∧
    (¬ (isNewChatOf st = true ∧ TurnEvent.stop ∉ events ∧ outcome = none) →
       (runTurn st q uid mid events outcome).history = st.history) := by
  unfold runTurn
  rw [if_neg hacc]
  by_cases hstop : TurnEvent.stop ∈ events
  · rw [settleTurn_cancelled (cancelled_of_stop_mem _ mid _ events hstop)]
    constructor
    · rintro ⟨-, hns, -⟩
      exact absurd hstop hns
    · intro _
      rfl
  · have hcf := cancelled_of_stop_not_mem
      (streamKindOf st.activeModel (isNewChatOf st)) mid events initialAcc
      (msgs0Of st q uid mid) hstop
    cases outcome with
    | some emsg =>
      rw [settleTurn_error hcf]
      constructor
      · rintro ⟨-, -, hn⟩
        cases hn
      · intro _
        rw [errorPhase_history]
        rfl
    | none =>
      rw [settleTurn_commit hcf, commitPhase_history]
      have hbase : (if streamKindOf st.activeModel (isNewChatOf st) = .geminiNew then
          ({ startState st q uid mid with
             chatMessages := (events.foldl (stepK (streamKindOf st.activeModel (isNewChatOf st)) mid)
               ⟨false, initialAcc, msgs0Of st q uid mid⟩).msgs,
             cancelled := (events.foldl (stepK (streamKindOf st.activeModel (isNewChatOf st)) mid)
               ⟨false, initialAcc, msgs0Of st q uid mid⟩).cancelled,
             isRelatedLoading := true, activeChat := true } : PageState)
        else
          { startState st q uid mid with
             chatMessages := (events.foldl (stepK (streamKindOf st.activeModel (isNewChatOf st)) mid)
               ⟨false, initialAcc, msgs0Of st q uid mid⟩).msgs,
             cancelled := (events.foldl (stepK (streamKindOf st.activeModel (isNewChatOf st)) mid)
               ⟨false, initialAcc, msgs0Of st q uid mid⟩).cancelled }).history
          = st.history := by
        split
        · rfl
        · rfl
      rw [hbase]
      by_cases hnc : isNewChatOf st = true
      · rw [if_pos hnc]
        constructor
        · intro _
          exact ⟨_, rfl⟩
        · intro hneg
          exact absurd ⟨hnc, hstop, rfl⟩ hneg
      · have hnc2 : isNewChatOf st = false := by
          cases hv : isNewChatOf st
          · rfl
          · exact absurd hv hnc
        rw [if_neg (by rw [hnc2]; exact Bool.false_ne_true)]
        constructor
        · rintro ⟨h1, -, -⟩
          exact absurd h1 hnc
        · intro _
          rfl

/-- C5, witness: concrete instances — a clean first turn inserts a
record, a stopped first turn does not. -/
theorem C5_witness :
    (∃ rec, (runTurn sampleBase "hi" 0 1 [] none).history
        = rec :: sampleBase.history) ∧
    (runTurn sampleBase "hi" 0 1 [TurnEvent.stop] none).history
        = sampleBase.history :=
  ⟨(C5_history_persistence sampleBase "hi" 0 1 [] none (by decide)).1
      ⟨rfl, by decide, rfl⟩,
   (C5_history_persistence sampleBase "hi" 0 1 [TurnEvent.stop] none (by decide)).2
      (by decide)⟩

/-! ## Claim C6 -/

lemma errorPhase_error (st : PageState) (emsg : String) (mid : Nat) :
    (errorPhase st emsg mid).error
      = some (if jsIncludes (if emsg = "" then unexpectedErrorText else emsg)
                    "API quota exceeded"
              then quotaExceededText
              else (if emsg = "" then unexpectedErrorText else emsg)) := rfl

lemma errorPhase_msgs (st : PageState) (emsg : String) (mid : Nat) :
    (errorPhase st emsg mid).chatMessages
      = st.chatMessages.filter (fun m => m.id ≠ mid) := rfl

lemma handleGeminiError_quota (msg : String) (inner : Option String)
    (h : msg ≠ "") :
    handleGeminiError (.structured msg (some "RESOURCE_EXHAUSTED") inner)
      = quotaApiText := by
  simp only [handleGeminiError]
  rw [if_neg h]
  simp

lemma quotaApiText_includes :
    jsIncludes quotaApiText "API quota exceeded" = true := by decide

lemma not_mem_map_id_filter (l : List ChatMessage) (mid : Nat) :
    mid ∉ (l.filter (fun m => m.id ≠ mid)).map ChatMessage.id := by
  intro h
  rcases List.mem_map.1 h with ⟨m, hm, he⟩
  have h2 : m.id ≠ mid := by simpa using List.of_mem_filter hm
  exact h2 he

/-- A non-rate-limited provider failure whose message happens to
mention the quota phrase. -/
def trickyMsg : String := "Model blew up: API quota exceeded while grounding"

/-- C6, counterexample: the claim asserts every non-rate-limited
provider error surfaces its raw message text.  The catch block detects
the quota case by substring inclusion, so a plain (non-JSON,
non-`RESOURCE_EXHAUSTED`) provider error whose raw message merely
contains `"API quota exceeded"` is shown as the designated quota
message instead of its raw text. -/
theorem C6_counterexample :
    handleGeminiError (.plain trickyMsg) = trickyMsg ∧
    (runTurn sampleBase "hi" 0 1 []
        (some (handleGeminiError (.plain trickyMsg)))).error
      = some quotaExceededText ∧
    quotaExceededText ≠ trickyMsg := by
  decide

/-- C6 (amended): when the stream fails with a provider error (no stop
observed), a rate-limited error (`RESOURCE_EXHAUSTED`) surfaces the
designated quota-exceeded message; any other provider error whose
message does not contain the substring `"API quota exceeded"` surfaces
its raw message text; and in every error case the pending model
placeholder is removed from the visible message list. -/
theorem C6_error_surfacing (st : PageState) (q : String) (uid mid : Nat)
    (events : List TurnEvent) (emsg : String)
    (hacc : ¬ (st.isLoading = true ∨ (jsTrim q = "" ∧ st.file = false)))
    (hstop : TurnEvent.stop ∉ events) :
    (∀ msg inner, msg ≠ "" →
        emsg = handleGeminiError (.structured msg (some "RESOURCE_EXHAUSTED") inner) →
        (runTurn st q uid mid events (some emsg)).error = some quotaExceededText) ∧
    (emsg ≠ "" → jsIncludes emsg "API quota exceeded" = false →
        (runTurn st q uid mid events (some emsg)).error = some emsg) ∧
    mid ∉ ((runTurn st q uid mid events (some emsg)).chatMessages.map ChatMessage.id) := by
  have hcf := cancelled_of_stop_not_mem
    (streamKindOf st.activeModel (isNewChatOf st)) mid events initialAcc
    (msgs0Of st q uid mid) hstop
  unfold runTurn
  rw [if_neg hacc, settleTurn_error hcf]
  refine ⟨?_, ?_, ?_⟩
  · intro msg inner hne hemsg
    rw [hemsg, handleGeminiError_quota msg inner hne, errorPhase_error,
        if_neg (show ¬ quotaApiText = "" by decide), if_pos quotaApiText_includes]
  · intro hne hni
    rw [errorPhase_error, if_neg hne,
        if_neg (by rw [hni]; exact Bool.false_ne_true)]
  · rw [errorPhase_msgs]
    exact not_mem_map_id_filter _ mid

/-- C6, witness: concrete error turns — a rate-limited failure shows
the quota message, an unrelated failure shows its raw text, and the
placeholder id is gone in the error state. -/
theorem C6_witness :
    (runTurn sampleBase "hi" 0 1 []
        (some (handleGeminiError (.structured "boom" (some "RESOURCE_EXHAUSTED") none)))).error
      = some quotaExceededText ∧
    (runTurn sampleBase "hi" 0 1 [] (some "plain failure")).error
      = some "plain failure" ∧
    1 ∉ ((runTurn sampleBase "hi" 0 1 [] (some "plain failure")).chatMessages.map
          ChatMessage.id) :=
  ⟨(C6_error_surfacing sampleBase "hi" 0 1 [] _ (by decide) (by simp)).1
      "boom" none (by decide) rfl,
   (C6_error_surfacing sampleBase "hi" 0 1 [] "plain failure" (by decide) (by simp)).2.1
      (by decide) (by decide),
   (C6_error_surfacing sampleBase "hi" 0 1 [] "plain failure" (by decide) (by simp)).2.2⟩

/-! ## Claim C8 -/

/-- The concrete final text of spec §8: prose followed by a trailing
fenced JSON comparison block. -/
def specTableExample : String :=
  "Summary ```json\n\x7b\"text\":\"S\",\"table\":\x7b\"headers\":[\"H1\"],\"rows\":[[\"v1\"]]\x7d\x7d\n```"

/-- C8: the extractor never throws (it is a total function), returns
the original text and no table whenever there is no trailing fenced
block or its JSON is malformed or ill-shaped, returns the block's
`text` field (falling back to the trimmed preceding prose when that
field is empty) with the parsed table when the block is well-formed,
and — whenever no table is produced — the text comes back verbatim.
The §8 example extracts to `("S", \x7bheaders := ["H1"],
rows := [["v1"]]\x7d)`. -/
theorem C8_table_extraction :
    (∀ s, trailingFencedBlock s = none →
        extractAndParseMarkdownTable s = (s, none)) ∧
    (∀ s pi, trailingFencedBlock s = some pi →
        (jsonParse pi.2 = none → extractAndParseMarkdownTable s = (s, none)) ∧
        (∀ v, jsonParse pi.2 = some v → parseTablePayload v = none →
            extractAndParseMarkdownTable s = (s, none)) ∧
        (∀ v tt, jsonParse pi.2 = some v → parseTablePayload v = some tt →
            extractAndParseMarkdownTable s
              = (if tt.1 = "" then jsTrim pi.1 else tt.1, some tt.2))) ∧
    (∀ s, (extractAndParseMarkdownTable s).2 = none →
        (extractAndParseMarkdownTable s).1 = s) ∧
    extractAndParseMarkdownTable specTableExample
      = ("S", some ⟨["H1"], [["v1"]]⟩) := by
  refine ⟨?_, ?_, ?_, ?_⟩
  · intro s h
    simp [extractAndParseMarkdownTable, h]
  · intro s pi h
    refine ⟨?_, ?_, ?_⟩
    · intro hj
      simp [extractAndParseMarkdownTable, h, hj]
    · intro v hj hp
      simp [extractAndParseMarkdownTable, h, hj, hp]
    · intro v tt hj hp
      simp [extractAndParseMarkdownTable, h, hj, hp]
  · intro s h2
    cases ht : trailingFencedBlock s with
    | none => simp [extractAndParseMarkdownTable, ht]
    | some pi =>
      cases hj : jsonParse pi.2 with
      | none => simp [extractAndParseMarkdownTable, ht, hj]
      | some v =>
        cases hp : parseTablePayload v with
        | none => simp [extractAndParseMarkdownTable, ht, hj, hp]
        | some tt =>
          exfalso
          simp [extractAndParseMarkdownTable, ht, hj, hp] at h2
  · rfl

/-- C8, witness: text with no fenced block at all comes back unchanged
with no table. -/
theorem C8_witness :
    extractAndParseMarkdownTable "plain text" = ("plain text", none) :=
  C8_table_extraction.1 "plain text" rfl

/-! ## Claim C9 -/

/-- C9: the enrichment tasks degrade to `[]` instead of erroring.
`generateRelatedQueries` returns `[]` on a transport failure, on
unparsable JSON and on a parse that is not an array of strings.
`fetchImagesForSources` returns `[]` on a transport failure, on a blank
query, on an empty source list, and on every parse-level internal
failure: response text whose parsable slice does not start with `[`,
malformed JSON, JSON that parses to a non-array, and a filter predicate
that throws (a `null` element or a non-string truthy URL field).
(Both model functions are total, so nothing can escape to the
caller.) -/
theorem C9_enrichment_degrades :
    (generateRelatedQueries .failure = []) ∧
    (∀ t, jsonParse (relatedJsonText t) = none →
        generateRelatedQueries (.success t) = []) ∧
    (∀ t v, jsonParse (relatedJsonText t) = some v → asStringArray v = none →
        generateRelatedQueries (.success t) = []) ∧
    (∀ (q : String) (ss : List Source), fetchImagesForSources q ss .failure = []) ∧
    (∀ (q : String) (ss : List Source) (api : ApiResult), jsTrim q = "" →
        fetchImagesForSources q ss api = []) ∧
    (∀ (q : String) (api : ApiResult), fetchImagesForSources q [] api = []) ∧
    (∀ (q : String) (ss : List Source) (t : String),
        startsWithBracket (imagesParsableText t) = false →
        fetchImagesForSources q ss (.success t) = []) ∧
    (∀ (q : String) (ss : List Source) (t : String),
        jsonParse (imagesParsableText t) = none →
        fetchImagesForSources q ss (.success t) = []) ∧
    (∀ (q : String) (ss : List Source) (t : String) (v : JsonValue),
        jsonParse (imagesParsableText t) = some v →
        (∀ xs, v ≠ JsonValue.arr xs) →
        fetchImagesForSources q ss (.success t) = []) ∧
    (∀ (q : String) (ss : List Source) (t : String) (xs : List JsonValue),
        jsonParse (imagesParsableText t) = some (JsonValue.arr xs) →
        filterImages xs = none →
        fetchImagesForSources q ss (.success t) = []) := by
  refine ⟨rfl, ?_, ?_, ?_, ?_, ?_, ?_, ?_, ?_, ?_⟩
  · intro t hj
    simp [generateRelatedQueries, hj]
  · intro t v hj ha
    simp [generateRelatedQueries, hj, ha]
  · intro q ss
    unfold fetchImagesForSources
    split
    · rfl
    · rfl
  · intro q ss api h
    unfold fetchImagesForSources
    rw [if_pos (Or.inl h)]
  · intro q api
    unfold fetchImagesForSources
    rw [if_pos (Or.inr (show ([] : List Source).isEmpty = true from rfl))]
  · intro q ss t hb
    unfold fetchImagesForSources
    split
    · rfl
    · simp [hb]
  · intro q ss t hj
    unfold fetchImagesForSources
    split
    · rfl
    · simp [hj]
  · intro q ss t v hj hv
    unfold fetchImagesForSources
    split
    · rfl
    · cases v with
      | arr xs => exact absurd rfl (hv xs)
      | str s => simp [hj]
      | num n => simp [hj]
      | bool b => simp [hj]
      | null => simp [hj]
      | obj fields => simp [hj]
  · intro q ss t xs hj hf
    unfold fetchImagesForSources
    split
    · rfl
    · simp [hj, hf]

/-- C9, witness: concrete degraded runs — an unparsable related-query
response, a blank query, an empty source list, non-bracket response
text, malformed JSON, a fenced block parsing to a non-array, and a
throwing filter predicate on a `null` element. -/
theorem C9_witness :
    generateRelatedQueries (.success "oops") = [] ∧
    fetchImagesForSources "   " [⟨"t", "u"⟩] (.success "[]") = [] ∧
    fetchImagesForSources "q" [] (.success "[]") = [] ∧
    fetchImagesForSources "q" [⟨"t", "u"⟩] (.success "no array here") = [] ∧
    fetchImagesForSources "q" [⟨"t", "u"⟩] (.success "[oops") = [] ∧
    fetchImagesForSources "q" [⟨"t", "u"⟩] (.success "```\n5\n```") = [] ∧
    fetchImagesForSources "q" [⟨"t", "u"⟩] (.success "[null]") = [] :=
  ⟨C9_enrichment_degrades.2.1 "oops" rfl,
   C9_enrichment_degrades.2.2.2.2.1 "   " [⟨"t", "u"⟩] (.success "[]") rfl,
   C9_enrichment_degrades.2.2.2.2.2.1 "q" (.success "[]"),
   C9_enrichment_degrades.2.2.2.2.2.2.1 "q" [⟨"t", "u"⟩] "no array here" rfl,
   C9_enrichment_degrades.2.2.2.2.2.2.2.1 "q" [⟨"t", "u"⟩] "[oops" rfl,
   C9_enrichment_degrades.2.2.2.2.2.2.2.2.1 "q" [⟨"t", "u"⟩] "```\n5\n```"
     (JsonValue.num 5) rfl (fun _ h => JsonValue.noConfusion h),
   C9_enrichment_degrades.2.2.2.2.2.2.2.2.2 "q" [⟨"t", "u"⟩] "[null]"
     [JsonValue.null] rfl rfl⟩

/-! ## Claim C10 -/

lemma nodup_foldl_ins (l : List String) (acc : List String) (h : acc.Nodup) :
    (l.foldl (fun acc q => if q ∈ acc then acc else acc ++ [q]) acc).Nodup := by
  induction l generalizing acc with
  | nil => exact h
  | cons q t ih =>
    rw [List.foldl_cons]
    by_cases hq : q ∈ acc
    · rw [if_pos hq]
      exact ih acc h
    · rw [if_neg hq]
      refine ih _ ?_
      simp [List.nodup_append, h, hq]

lemma nodup_jsDedupe (l : List String) : (jsDedupe l).Nodup :=
  nodup_foldl_ins l [] List.nodup_nil

/-- C10: a successful `generateRelatedQueries` run returns at most 5
pairwise-distinct queries (`[...new Set(queries)].slice(0, 5)`); the
bound and distinctness in fact hold for every outcome. -/
theorem C10_related_queries_bounded :
    ∀ api : ApiResult, (generateRelatedQueries api).length ≤ 5 ∧
        (generateRelatedQueries api).Nodup := by
  intro api
  cases api with
  | failure => exact ⟨by simp [generateRelatedQueries], by simp [generateRelatedQueries]⟩
  | success t =>
    cases hj : jsonParse (relatedJsonText t) with
    | none => simp [generateRelatedQueries, hj]
    | some v =>
      cases ha : asStringArray v with
      | none => simp [generateRelatedQueries, hj, ha]
      | some queries =>
        have he : generateRelatedQueries (.success t) = (jsDedupe queries).take 5 := by
          simp [generateRelatedQueries, hj, ha]
        rw [he]
        constructor
        · exact List.length_take_le 5 (jsDedupe queries)
        · exact List.Nodup.sublist (List.take_sublist 5 (jsDedupe queries))
            (nodup_jsDedupe queries)

end LoquacityAI
